import Mathlib

/-!
Verification of the decoded-pixel pipeline of Dicom-Tools-rs.

The development shallowly embeds the pure content of `src/stats.rs`,
`src/image.rs`, `src/transcode.rs` and the argument guards of `src/cli.rs`
and `src/web.rs`.  Decoded pixel samples are the `f32` intensities produced
by `pixel_values` (modality LUT applied); they are modelled as `ℚ`, since
decoded DICOM data is finite and the properties proved here are about the
counting, ordering, selection and packing structure of the code, not about
floating-point rounding.  Fallible Rust functions (`anyhow::Result`) are
modelled with `Except DicomError`.
-/

namespace DicomTools

/-- Error taxonomy used by the embedded functions.  The Rust code reports
errors through `anyhow` with message strings; `invalidArgument` carries the
message of a `bail!`, and `frameOutOfRange` carries the requested frame and
the frame count of the buffer (image.rs lines 51-57). -/
inductive DicomError where
  | invalidArgument : String → DicomError
  | frameOutOfRange : Nat → Nat → DicomError
  deriving DecidableEq

/-- models.rs `PixelStatistics` (lines 46-55).  `f32` fields are modelled as
`ℚ`; `std_dev` holds the radicand of the source's final `sqrt` (the
population variance `variance_sum / total_pixels`): the square root is not
rational, and every claim proved about `std_dev` concerns only the point
where it is `0`, and `sqrt x = 0` exactly when `x = 0`. -/
structure PixelStatistics where
  min : ℚ
  max : ℚ
  mean : ℚ
  median : Option ℚ
  std_dev : ℚ
  total_pixels : Nat
  shape : List Nat
  deriving DecidableEq

/-- models.rs `PixelHistogram` (lines 58-63): `bins` are `u64` counts
(modelled as `Nat`: a count never exceeds the number of samples), `min` and
`max` are the observed range. -/
structure PixelHistogram where
  bins : List Nat
  min : ℚ
  max : ℚ
  deriving DecidableEq

/-- Running minimum of a sample list.  stats.rs seeds the fold with
`f32::INFINITY` (lines 61, 66; 123, 126) and only consumes the result on a
non-empty list, where seeding with the head is equivalent; the `[]` value is
never used by the embedded code. -/
def minOf : List ℚ → ℚ
  | [] => 0
  | v :: vs => vs.foldl min v

/-- Running maximum of a sample list; see `minOf` (stats.rs lines 62, 67;
124, 127). -/
def maxOf : List ℚ → ℚ
  | [] => 0
  | v :: vs => vs.foldl max v

/-- stats.rs `pixel_statistics_from_decoded` (lines 46-101).  The Rust
function first extracts `(values, shape)` from the decoded buffer via
`pixel_values` (stats.rs lines 187-194, an external decode step whose
results are the inputs here); after that extraction every path returns
`Ok`, so the body is modelled as a plain record (see
`pixel_statistics_result` for the `Result` wrapper).  `sort_by` with the
total `partial_cmp` comparison on finite floats is modelled by the stable
`insertionSort` under `≤`. -/
def pixel_statistics_from_decoded (values : List ℚ) (shape : List Nat) : PixelStatistics :=
  if values.isEmpty then
    { min := 0, max := 0, mean := 0, median := none, std_dev := 0,
      total_pixels := 0, shape := shape }
  else
    let mn := minOf values
    let mx := maxOf values
    let total_pixels := values.length
    let mean := (values.foldl (· + ·) 0) / (total_pixels : ℚ)
    let variance_sum := values.foldl (fun acc v => acc + (v - mean) * (v - mean)) 0
    let sorted := values.insertionSort (· ≤ ·)
    let mid := sorted.length / 2
    let median :=
      if sorted.length % 2 == 0 then some ((sorted.getD (mid - 1) 0 + sorted.getD mid 0) / 2)
      else some (sorted.getD mid 0)
    { min := mn, max := mx, mean := mean, median := median,
      std_dev := variance_sum / (total_pixels : ℚ),
      total_pixels := total_pixels, shape := shape }

/-- The `Result` shape of stats.rs `pixel_statistics_from_decoded`: every
path of the source body returns `Ok`. -/
def pixel_statistics_result (values : List ℚ) (shape : List Nat) :
    Except DicomError PixelStatistics :=
  Except.ok (pixel_statistics_from_decoded values shape)

/-- Follows the spec's words (§4.2): sort a fresh copy of the sample array;
for even N return the average of the two central elements, for odd N the
central element.  Stated separately from the source embedding so the two
can be compared. -/
def median_spec (values : List ℚ) : ℚ :=
  let sorted := values.insertionSort (· ≤ ·)
  let n := sorted.length
  if n % 2 == 0 then (sorted.getD (n / 2 - 1) 0 + sorted.getD (n / 2) 0) / 2
  else sorted.getD (n / 2) 0

/-- stats.rs lines 134-138: bin selection for one sample.  A degenerate
range selects bin 0; otherwise `floor((v - min) / range * bin_count)` is
computed and cast `as usize`, which saturates negatives to 0 — `Int.toNat`
does the same (the value is in fact non-negative because `v ≥ min`). -/
def bin_index (mn range : ℚ) (bin_count : Nat) (v : ℚ) : Nat :=
  if range = 0 then 0
  else (⌊((v - mn) / range) * (bin_count : ℚ)⌋).toNat

/-- stats.rs line 140: `counts[clamped] += 1`. -/
def bump (counts : List Nat) (i : Nat) : List Nat :=
  counts.set i (counts.getD i 0 + 1)

/-- stats.rs `histogram_from_decoded` (lines 112-148), with the sample
values of `pixel_values` as input (see `pixel_statistics_from_decoded`).
The effective bin count is `bins.max(1)` (line 130) and each sample bumps
the bin `idx.min(bin_count - 1)` (lines 139-140). -/
def histogram_from_decoded (values : List ℚ) (bins : Nat) : PixelHistogram :=
  if values.isEmpty then { bins := [], min := 0, max := 0 }
  else
    let mn := minOf values
    let mx := maxOf values
    let bin_count := max bins 1
    let range := mx - mn
    let counts := values.foldl
      (fun counts v => bump counts (min (bin_index mn range bin_count v) (bin_count - 1)))
      (List.replicate bin_count 0)
    { bins := counts, min := mn, max := mx }

/-- The `Result` shape of stats.rs `histogram_from_decoded`: every path of
the source body returns `Ok`. -/
def histogram_result (values : List ℚ) (bins : Nat) : Except DicomError PixelHistogram :=
  Except.ok (histogram_from_decoded values bins)

/-- cli.rs lines 200-204: the `Histogram` subcommand bails with
"Number of bins must be greater than zero" when `bins == 0`, before the
file is opened (so before any sample is read); otherwise it runs the
histogram computation. -/
def cli_histogram (values : List ℚ) (bins : Nat) : Except DicomError PixelHistogram :=
  if bins == 0 then
    Except.error (DicomError.invalidArgument "Number of bins must be greater than zero")
  else histogram_result values bins

/-- web.rs `histogram_handler` (lines 140-158): the query's `bins` defaults
to 256, and `bins == 0` is answered with a BAD_REQUEST before the file is
resolved; otherwise it runs the histogram computation. -/
def histogram_handler (values : List ℚ) (query_bins : Option Nat) :
    Except DicomError PixelHistogram :=
  let bins := query_bins.getD 256
  if bins == 0 then
    Except.error (DicomError.invalidArgument "bins must be greater than 0")
  else histogram_result values bins

/-- dicom_pixeldata `WindowLevel` as used by image.rs: a VOI window's
center and width. -/
structure WindowLevel where
  center : ℚ
  width : ℚ
  deriving DecidableEq

/-- dicom_pixeldata `ModalityLutOption`, as far as image.rs selects it. -/
inductive ModalityLutOption where
  | Default
  | None
  deriving DecidableEq

/-- dicom_pixeldata `VoiLutOption`, as far as image.rs selects it. -/
inductive VoiLutOption where
  | Default
  | Identity
  | Custom : WindowLevel → VoiLutOption
  | Normalize
  deriving DecidableEq

/-- dicom_pixeldata output bit-depth selection: `ConvertOptions::new()`
starts at `Auto`; `force_8bit()` / `force_16bit()` overwrite it. -/
inductive BitDepthOption where
  | Auto
  | Force8Bit
  | Force16Bit
  deriving DecidableEq

/-- dicom_pixeldata `ConvertOptions`, as far as image.rs constructs it. -/
structure ConvertOptions where
  modality_lut : ModalityLutOption
  voi_lut : VoiLutOption
  bit_depth : BitDepthOption
  deriving DecidableEq

/-- `ConvertOptions::new()`: all defaults. -/
def ConvertOptions.new : ConvertOptions :=
  { modality_lut := ModalityLutOption.Default, voi_lut := VoiLutOption.Default,
    bit_depth := BitDepthOption.Auto }

/-- image.rs `ImageExportOptions` (lines 18-27): a plain record with no
validation of its own (`derive(Default)` in the source). -/
structure ImageExportOptions where
  frame : Option Nat
  window : Option WindowLevel
  normalize : Bool
  disable_modality_lut : Bool
  disable_voi_lut : Bool
  force_8bit : Bool
  force_16bit : Bool
  deriving DecidableEq

/-- image.rs `build_convert_options` (lines 108-131), step for step: opt
out of LUT/VOI transforms according to the flags, then let `force_16bit`
take the `if` branch ahead of `force_8bit` (lines 124-128). -/
def build_convert_options (options : ImageExportOptions) : ConvertOptions :=
  let convert := ConvertOptions.new
  let convert :=
    if options.disable_modality_lut then { convert with modality_lut := ModalityLutOption.None }
    else convert
  let convert :=
    if options.disable_voi_lut then { convert with voi_lut := VoiLutOption.Identity }
    else
      match options.window with
      | some window => { convert with voi_lut := VoiLutOption.Custom window }
      | none =>
        if options.normalize then { convert with voi_lut := VoiLutOption.Normalize }
        else convert
  if options.force_16bit then { convert with bit_depth := BitDepthOption.Force16Bit }
  else if options.force_8bit then { convert with bit_depth := BitDepthOption.Force8Bit }
  else convert

/-- Modelled from cli.rs lines 59-62: the `to-image` flag `force_8bit`
carries the clap attribute `conflicts_with = "force_16bit"`, so argument
parsing fails exactly when both flags are passed.  Returns `true` when the
parser rejects the pair. -/
def to_image_args_rejected (force_8bit force_16bit : Bool) : Bool :=
  force_8bit && force_16bit

/-- Rust's `{:03}` formatting used in image.rs line 82: the decimal digits
of the index, left-padded with zeros to a minimum width of 3. -/
def format_frame_index (i : Nat) : String :=
  let s := toString i
  if s.length < 3 then String.mk (List.replicate (3 - s.length) '0') ++ s else s

/-- image.rs line 82: `format!("\x7b\x7d_frame\x7b:03\x7d.\x7b\x7d", stem, i, format)`. -/
def frame_name (stem : String) (i : Nat) (ext : String) : String :=
  stem ++ "_frame" ++ format_frame_index i ++ "." ++ ext

/-- image.rs `convert` (lines 29-92) at the level of frame selection and
output naming.  Pixel rendering (`to_dynamic_image_with_options`) and file
writing are delegated to external collaborators; the embedded function
returns the ordered list of output file names the source saves, with the
base output modelled by its stem and extension (the source derives them
from `output`/`input` and `format`, lines 44-48, 77-78).  An explicit
`frame >= num_frames` bails before any frame is converted or saved (lines
50-58); a single selected frame is saved unsuffixed to the base output
(lines 65-73); otherwise every frame of `0..num_frames` is saved in
ascending order under a `_frameNNN` name (lines 80-89). -/
def convert (num_frames : Nat) (stem ext : String) (options_frame : Option Nat) :
    Except DicomError (List String) :=
  match options_frame with
  | some frame =>
    if frame ≥ num_frames then Except.error (DicomError.frameOutOfRange frame num_frames)
    else Except.ok [stem ++ "." ++ ext]
  | none =>
    if num_frames = 1 then Except.ok [stem ++ "." ++ ext]
    else Except.ok ((List.range num_frames).map (fun i => frame_name stem i ext))

/-- DICOM value representations used by transcode.rs line 73: wide (OW) and
narrow (OB) binary. -/
inductive VR where
  | OB
  | OW
  deriving DecidableEq

/-- Rust `u16::to_le_bytes` (transcode.rs line 56): low byte first.  A
`u16` value is below `2 ^ 16`, so the high byte is `v / 256 % 256 =
v / 256`. -/
def to_le_bytes (v : Nat) : List Nat :=
  [v % 256, v / 256 % 256]

/-- transcode.rs lines 49-62: the pixel byte payload.  When
`bits_allocated > 8`, the decoder's native `u16` samples are flattened into
little-endian byte pairs; otherwise the native `u8` samples are the bytes
themselves.  The native (untransformed) sample sequence delivered by
`to_vec_with_options` is the input. -/
def transcode_pixel_bytes (bits_allocated : Nat) (samples : List Nat) : List Nat :=
  if 8 < bits_allocated then samples.flatMap to_le_bytes else samples

/-- transcode.rs line 73: `VR::OW` when `bits_allocated > 8`, else
`VR::OB`. -/
def transcode_vr (bits_allocated : Nat) : VR :=
  if 8 < bits_allocated then VR.OW else VR.OB

/-- The output sample width implied by the branch at transcode.rs line 50:
16-bit when `bits_allocated > 8`, else 8-bit. -/
def resolved_output_width (bits_allocated : Nat) : Nat :=
  if 8 < bits_allocated then 16 else 8

/-- Bumping a bin preserves the number of bins. -/
theorem length_bump (counts : List Nat) (i : Nat) :
    (bump counts i).length = counts.length := by
  simp [bump]

/-- Bumping a bin inside range increases the total count by one. -/
theorem sum_bump (counts : List Nat) (i : Nat) (h : i < counts.length) :
    (bump counts i).sum = counts.sum + 1 := by
  induction counts generalizing i with
  | nil => simp at h
  | cons c cs ih =>
    cases i with
    | zero =>
      simp only [bump, List.getD_cons_zero, List.set_cons_zero, List.sum_cons]
      omega
    | succ n =>
      have hn : n < cs.length := Nat.lt_of_succ_lt_succ h
      have hcs := ih n hn
      simp only [bump, List.getD_cons_succ, List.set_cons_succ, List.sum_cons] at hcs ⊢
      omega

/-- Invariant of the histogram accumulation loop (stats.rs lines 133-141):
folding the bump step over any sample list keeps the number of bins at
`bc` and adds one to the total count per sample. -/
theorem histogram_fold_invariant (f : ℚ → Nat) (bc : Nat) (hbc : 0 < bc) (vs : List ℚ) :
    ∀ counts : List Nat, counts.length = bc →
      (vs.foldl (fun counts v => bump counts (min (f v) (bc - 1))) counts).length = bc ∧
      (vs.foldl (fun counts v => bump counts (min (f v) (bc - 1))) counts).sum =
        counts.sum + vs.length := by
  induction vs with
  | nil =>
    intro counts hlen
    simpa using hlen
  | cons v vs ih =>
    intro counts hlen
    have hmin : min (f v) (bc - 1) < counts.length := by
      have hle := Nat.min_le_right (f v) (bc - 1)
      omega
    have hlen2 : (bump counts (min (f v) (bc - 1))).length = bc := by
      rw [length_bump]; exact hlen
    have hsum := sum_bump counts (min (f v) (bc - 1)) hmin
    have ihx := ih (bump counts (min (f v) (bc - 1))) hlen2
    refine ⟨?_, ?_⟩
    · simpa [List.foldl_cons] using ihx.1
    · simp only [List.foldl_cons, List.length_cons]
      rw [ihx.2, hsum]
      omega

/-- On a non-empty sample list, the bins of the histogram are exactly the
accumulation loop of stats.rs lines 131-141 run from the all-zero bin
vector. -/
theorem histogram_eval (values : List ℚ) (bins : Nat) (h : values ≠ []) :
    (histogram_from_decoded values bins).bins =
      values.foldl
        (fun counts v =>
          bump counts
            (min (bin_index (minOf values) (maxOf values - minOf values) (max bins 1) v)
              (max bins 1 - 1)))
        (List.replicate (max bins 1) 0) := by
  cases values with
  | nil => exact absurd rfl h
  | cons v vs => simp [histogram_from_decoded]

/-- For a non-empty sample list the histogram has exactly `bins.max(1)`
bins (stats.rs lines 130-131, the length is fixed by `vec![0u64;
bin_count]` and preserved by the loop). -/
theorem histogram_bins_length_eq_max (values : List ℚ) (bins : Nat) (h : values ≠ []) :
    (histogram_from_decoded values bins).bins.length = max bins 1 := by
  rw [histogram_eval values bins h]
  exact (histogram_fold_invariant
    (fun w => bin_index (minOf values) (maxOf values - minOf values) (max bins 1) w)
    (max bins 1) (by omega) values (List.replicate (max bins 1) 0) (by simp)).1

/-- C1: For every non-empty pixel buffer and every requested bin count, the
histogram computed by `histogram_from_decoded` satisfies `sum(bins) ==
totalSampleCount`: every transformed sample is counted in exactly one bin
(bin index `floor((value - min) / (max - min) * binCount)` saturated to
`Nat` and clamped to `[0, binCount - 1]`; a degenerate range `max == min`
puts every sample in bin 0). -/
theorem histogram_bins_sum_eq_total (values : List ℚ) (bins : Nat) (h : values ≠ []) :
    (histogram_from_decoded values bins).bins.sum = values.length := by
  rw [histogram_eval values bins h]
  exact ((histogram_fold_invariant
    (fun w => bin_index (minOf values) (maxOf values - minOf values) (max bins 1) w)
    (max bins 1) (by omega) values (List.replicate (max bins 1) 0) (by simp)).2).trans
    (by simp)

/-- Witness for C1: a concrete 4-sample buffer with 4 requested bins. -/
theorem histogram_bins_sum_eq_total_witness :
    ([(0 : ℚ), 5, 9, 10] ≠ []) ∧ (histogram_from_decoded [(0 : ℚ), 5, 9, 10] 4).bins.sum = 4 :=
  ⟨by simp, histogram_bins_sum_eq_total [(0 : ℚ), 5, 9, 10] 4 (by simp)⟩

/-- C2, counterexample: `histogram_from_decoded` does not reject a zero bin
count — on the one-sample buffer `[5]` with `bins == 0` it succeeds,
proceeding with the substituted (floored) bin count 1. -/
theorem histogram_zero_bins_not_rejected :
    histogram_result [(5 : ℚ)] 0 =
      Except.ok { bins := [1], min := 5, max := 5 } := by
  norm_num [histogram_result, histogram_from_decoded, minOf, maxOf, bin_index, bump,
    List.foldl, List.replicate, List.set]

/-- C2 as amended: the zero-bin-count rejection lives in the callers, not
in the computation.  The CLI `Histogram` command and the web
`histogram_handler` both reject `bins == 0` with an invalid-argument error
before any sample is read (the guard does not inspect `values`), while
`histogram_from_decoded` itself floors the effective bin count at 1 and
computes the same result for `bins == 0` as for `bins == 1`. -/
theorem histogram_zero_bin_count_behavior (values : List ℚ) :
    cli_histogram values 0 =
        Except.error (DicomError.invalidArgument "Number of bins must be greater than zero") ∧
    histogram_handler values (some 0) =
        Except.error (DicomError.invalidArgument "bins must be greater than 0") ∧
    histogram_from_decoded values 0 = histogram_from_decoded values 1 := by
  refine ⟨rfl, rfl, ?_⟩
  unfold histogram_from_decoded
  norm_num

/-- C3: statistics of an empty sample buffer are all zero with no median,
and the computation returns a result, not an error (stats.rs lines
49-59). -/
theorem pixel_statistics_empty (shape : List Nat) :
    pixel_statistics_result [] shape =
      Except.ok { min := 0, max := 0, mean := 0, median := none, std_dev := 0,
                  total_pixels := 0, shape := shape } := rfl

/-- C4: for every non-empty buffer the median reported by
`pixel_statistics_from_decoded` equals the value described by the spec —
sort a fresh copy of the sample array, for even N average the two central
elements, for odd N take the central element (`median_spec`). -/
theorem pixel_statistics_median_eq_spec (values : List ℚ) (shape : List Nat)
    (h : values ≠ []) :
    (pixel_statistics_from_decoded values shape).median = some (median_spec values) := by
  cases values with
  | nil => exact absurd rfl h
  | cons v vs =>
    simp only [pixel_statistics_from_decoded, median_spec, List.isEmpty_cons,
      Bool.false_eq_true, if_false, apply_ite some]

/-- Witness for C4: the spec's own example buffers; `[1,2,3,4]` has median
`2.5` and `[1,2,3]` has median `2`. -/
theorem pixel_statistics_median_eq_spec_witness :
    (pixel_statistics_from_decoded [(1 : ℚ), 2, 3, 4] [4]).median = some (5 / 2) ∧
    (pixel_statistics_from_decoded [(1 : ℚ), 2, 3] [3]).median = some 2 := by
  constructor
  · rw [pixel_statistics_median_eq_spec [(1 : ℚ), 2, 3, 4] [4] (by simp)]
    norm_num [median_spec, List.insertionSort, List.orderedInsert]
  · rw [pixel_statistics_median_eq_spec [(1 : ℚ), 2, 3] [3] (by simp)]
    norm_num [median_spec, List.insertionSort, List.orderedInsert]

/-- C5, counterexample: the bins sequence does not always have the
requested length — for an empty buffer and a requested bin count of 2 the
histogram's bins sequence is empty (stats.rs lines 115-121). -/
theorem histogram_bins_length_counterexample :
    (histogram_from_decoded [] 2).bins.length ≠ 2 := by
  decide

/-- C5 as amended: for every non-empty buffer and requested bin count of at
least 1 the bins sequence has exactly the requested length; an empty buffer
yields an empty bins sequence, and a requested bin count of 0 on a
non-empty buffer yields a single bin (the effective count floors at 1). -/
theorem histogram_bins_length (values : List ℚ) (bins : Nat) :
    (values ≠ [] → 1 ≤ bins → (histogram_from_decoded values bins).bins.length = bins) ∧
    (values = [] → (histogram_from_decoded values bins).bins = []) ∧
    (values ≠ [] → (histogram_from_decoded values 0).bins.length = 1) := by
  refine ⟨?_, ?_, ?_⟩
  · intro h hbins
    rw [histogram_bins_length_eq_max values bins h]
    omega
  · intro h
    subst h
    rfl
  · intro h
    rw [histogram_bins_length_eq_max values 0 h]
    omega

/-- Witness for C5: concrete one-sample and empty buffers. -/
theorem histogram_bins_length_witness :
    (histogram_from_decoded [(7 : ℚ)] 3).bins.length = 3 ∧
    (histogram_from_decoded ([] : List ℚ) 3).bins = [] ∧
    (histogram_from_decoded [(7 : ℚ)] 0).bins.length = 1 :=
  ⟨(histogram_bins_length [(7 : ℚ)] 3).1 (by simp) (by omega),
   (histogram_bins_length ([] : List ℚ) 3).2.1 rfl,
   (histogram_bins_length [(7 : ℚ)] 0).2.2 (by simp)⟩

/-- C6, counterexample: constructing conversion options with both
width-force flags set is not rejected — `build_convert_options` is total
and returns an options value (with the 16-bit force winning) on a record
with both flags set. -/
theorem build_convert_options_both_flags_not_rejected :
    build_convert_options
        { frame := none, window := none, normalize := false, disable_modality_lut := false,
          disable_voi_lut := false, force_8bit := true, force_16bit := true } =
      { modality_lut := ModalityLutOption.Default, voi_lut := VoiLutOption.Default,
        bit_depth := BitDepthOption.Force16Bit } := rfl

/-- C6 as amended: neither `ImageExportOptions` nor `build_convert_options`
rejects setting both width-force flags; `build_convert_options` resolves
the conflict by letting `force_16bit` take precedence (image.rs lines
124-128).  The CLI argument parser, by contrast, declares the two flags
mutually exclusive and rejects passing both, so no CLI-invoked conversion
runs with both flags set. -/
theorem build_convert_options_conflicting_flags (options : ImageExportOptions)
    (h8 : options.force_8bit = true) (h16 : options.force_16bit = true) :
    (build_convert_options options).bit_depth = BitDepthOption.Force16Bit ∧
    to_image_args_rejected options.force_8bit options.force_16bit = true := by
  constructor
  · simp [build_convert_options, h16]
  · rw [h8, h16]
    rfl

/-- Witness for C6: a concrete options record with both flags set. -/
theorem build_convert_options_conflicting_flags_witness :
    (build_convert_options
        { frame := none, window := some { center := 40, width := 400 }, normalize := true,
          disable_modality_lut := false, disable_voi_lut := false,
          force_8bit := true, force_16bit := true }).bit_depth = BitDepthOption.Force16Bit ∧
    to_image_args_rejected true true = true :=
  build_convert_options_conflicting_flags
    { frame := none, window := some { center := 40, width := 400 }, normalize := true,
      disable_modality_lut := false, disable_voi_lut := false,
      force_8bit := true, force_16bit := true } rfl rfl

/-- C7: requesting a frame index at or beyond the buffer's frame count
makes `convert` return a frame-out-of-range error (image.rs lines 50-58,
an error return, not a panic), and no output file list is ever produced:
the check precedes any frame conversion or save. -/
theorem convert_frame_out_of_range (num_frames frame : Nat) (stem ext : String)
    (h : num_frames ≤ frame) :
    convert num_frames stem ext (some frame) =
        Except.error (DicomError.frameOutOfRange frame num_frames) ∧
    ∀ outputs : List String, convert num_frames stem ext (some frame) ≠ Except.ok outputs := by
  have heq : convert num_frames stem ext (some frame) =
      Except.error (DicomError.frameOutOfRange frame num_frames) := by
    simp only [convert]
    rw [if_pos h]
  exact ⟨heq, fun outputs hok => by rw [heq] at hok; exact Except.noConfusion hok⟩

/-- Witness for C7: frame 5 of a 2-frame buffer. -/
theorem convert_frame_out_of_range_witness :
    convert 2 "scan" "png" (some 5) = Except.error (DicomError.frameOutOfRange 5 2) :=
  (convert_frame_out_of_range 2 5 "scan" "png" (by omega)).1

/-- C8: a multi-frame export with no explicit frame iterates all frames in
ascending index order, producing exactly one output per frame named
`stem_frameNNN.ext` with the index zero-padded to three digits (image.rs
lines 59-60, 80-89), while a single-frame export produces one unsuffixed
file (lines 65-73). -/
theorem convert_multi_frame_naming (num_frames : Nat) (stem ext : String)
    (h : 2 ≤ num_frames) :
    convert num_frames stem ext none =
        Except.ok ((List.range num_frames).map (fun i => frame_name stem i ext)) ∧
    ((List.range num_frames).map (fun i => frame_name stem i ext)).length = num_frames ∧
    (List.range num_frames).Pairwise (· < ·) ∧
    convert 1 stem ext none = Except.ok [stem ++ "." ++ ext] ∧
    frame_name "scan" 7 "png" = "scan_frame007.png" := by
  refine ⟨?_, by simp, List.pairwise_lt_range num_frames, rfl, rfl⟩
  simp only [convert]
  rw [if_neg (by omega)]

/-- Witness for C8: a 3-frame export. -/
theorem convert_multi_frame_naming_witness :
    convert 3 "ct" "png" none =
      Except.ok ["ct_frame000.png", "ct_frame001.png", "ct_frame002.png"] := by
  rw [(convert_multi_frame_naming 3 "ct" "png" (by omega)).1]
  rfl

/-- C9: for every transcode to an uncompressed target the resolved output
width is 16-bit exactly when `bits_allocated > 8` and 8-bit otherwise; at
8-bit each untransformed native sample is written as exactly its own byte,
at 16-bit each sample becomes a little-endian two-byte word (low byte
first, reconstructible as `low + 256 * high`); and the rewritten pixel
element carries OW (wide binary) for 16-bit and OB (narrow binary) for
8-bit (transcode.rs lines 49-79). -/
theorem transcode_output_packing (bits_allocated : Nat) (samples : List Nat) :
    (resolved_output_width bits_allocated = 16 ↔ 8 < bits_allocated) ∧
    (resolved_output_width bits_allocated = 8 ↔ bits_allocated ≤ 8) ∧
    (bits_allocated ≤ 8 → transcode_pixel_bytes bits_allocated samples = samples) ∧
    (8 < bits_allocated →
      transcode_pixel_bytes bits_allocated samples = samples.flatMap to_le_bytes ∧
      (transcode_pixel_bytes bits_allocated samples).length = 2 * samples.length) ∧
    (∀ v : Nat, v < 65536 →
      to_le_bytes v = [v % 256, v / 256] ∧ v % 256 + 256 * (v / 256) = v) ∧
    (transcode_vr bits_allocated = VR.OW ↔ 8 < bits_allocated) ∧
    (transcode_vr bits_allocated = VR.OB ↔ bits_allocated ≤ 8) := by
  have hlen : ∀ l : List Nat, (l.flatMap to_le_bytes).length = 2 * l.length := by
    intro l
    induction l with
    | nil => rfl
    | cons s ss ih =>
      simp only [List.flatMap_cons, List.length_append, ih, to_le_bytes]
      simp
      omega
  have hle : ∀ v : Nat, v < 65536 →
      to_le_bytes v = [v % 256, v / 256] ∧ v % 256 + 256 * (v / 256) = v := by
    intro v hv
    have hdiv : v / 256 < 256 := Nat.div_lt_of_lt_mul (by omega)
    exact ⟨by simp [to_le_bytes, Nat.mod_eq_of_lt hdiv], Nat.mod_add_div v 256⟩
  by_cases h8 : 8 < bits_allocated
  · refine ⟨?_, ?_, ?_, fun _ => ⟨?_, ?_⟩, hle, ?_, ?_⟩ <;>
      simp [resolved_output_width, transcode_pixel_bytes, transcode_vr, h8, hlen]
  · refine ⟨?_, ?_, ?_, fun hc => absurd hc h8, hle, ?_, ?_⟩ <;>
      simp [resolved_output_width, transcode_pixel_bytes, transcode_vr, h8] <;>
      omega

/-- Witness for C9: 16-bit and 8-bit packing of concrete samples. -/
theorem transcode_output_packing_witness :
    transcode_pixel_bytes 16 [4660, 255] = [52, 18, 255, 0] ∧
    transcode_pixel_bytes 8 [4660, 255] = [4660, 255] ∧
    transcode_vr 16 = VR.OW ∧
    transcode_vr 8 = VR.OB := by
  refine ⟨?_, ?_, ?_, ?_⟩
  · rw [((transcode_output_packing 16 [4660, 255]).2.2.2.1 (by omega)).1]
    decide
  · exact (transcode_output_packing 8 [4660, 255]).2.2.1 (by omega)
  · exact (transcode_output_packing 16 []).2.2.2.2.2.1.mpr (by omega)
  · exact (transcode_output_packing 8 []).2.2.2.2.2.2.mpr (by omega)

/-- C10: the histogram and the statistics computations report the same
`min` and `max` on the same buffer — both are the extrema of the same
modality-transformed flattened sample array (stats.rs lines 61-69 and
123-128 run the same reduction over the values of `pixel_values`), and
both are 0 for an empty buffer. -/
theorem stats_histogram_same_min_max (values : List ℚ) (shape : List Nat) (bins : Nat) :
    (pixel_statistics_from_decoded values shape).min = (histogram_from_decoded values bins).min ∧
    (pixel_statistics_from_decoded values shape).max = (histogram_from_decoded values bins).max ∧
    (pixel_statistics_from_decoded [] shape).min = 0 ∧
    (pixel_statistics_from_decoded [] shape).max = 0 := by
  cases values with
  | nil => exact ⟨rfl, rfl, rfl, rfl⟩
  | cons v vs =>
    refine ⟨?_, ?_, rfl, rfl⟩ <;>
      simp [pixel_statistics_from_decoded, histogram_from_decoded]

end DicomTools
